import Mathlib

/-!
Verification of the four-momentum algebra engine and the systematic
perturbation pipelines of datawarehouse/higgstautau.py.

The Python code is shallowly embedded over the real numbers: floating
point values are modelled as exact reals.  Where a claim hinges on IEEE
special values (the centrality scorer masks infinities and NaNs), an
explicit float model FV with NaN, signed infinities and overflow at the
largest finite double is used.  Fallible operations return Except or a
(state, Option error) pair; pandas column lookups are modelled with
Option-valued columns.
-/

noncomputable section

open Real

open scoped Classical

/-- Python float modulo with positive divisor: x % y = x - y * floor (x / y). -/
def fmod (x y : ℝ) : ℝ := x - y * (Int.floor (x / y) : ℝ)

/-- numpy arctan2, modelled by the complex argument: atan2 y x is the
argument of the complex number x + i y, with range (-pi, pi]. -/
def atan2 (y x : ℝ) : ℝ := Complex.arg ⟨x, y⟩

/-- The V4 four-vector class of higgstautau.py: components px, py, pz, e. -/
structure V4 where
  px : ℝ
  py : ℝ
  pz : ℝ
  e : ℝ

/-- V4.p2: px**2 + py**2 + pz**2. -/
def V4.p2 (v : V4) : ℝ := v.px ^ 2 + v.py ^ 2 + v.pz ^ 2

/-- V4.p: sqrt of p2. -/
def V4.p (v : V4) : ℝ := Real.sqrt v.p2

/-- V4.pt2: px**2 + py**2. -/
def V4.pt2 (v : V4) : ℝ := v.px ^ 2 + v.py ^ 2

/-- V4.pt: sqrt of pt2. -/
def V4.pt (v : V4) : ℝ := Real.sqrt v.pt2

/-- V4.m: sqrt (abs (e**2 - p2)); the abs is the protection in the source. -/
def V4.m (v : V4) : ℝ := Real.sqrt |v.e ^ 2 - v.p2|

/-- V4.eta: arcsinh (pz / pt). -/
def V4.eta (v : V4) : ℝ := Real.arsinh (v.pz / v.pt)

/-- V4.phi: arctan2 (py, px). -/
def V4.phi (v : V4) : ℝ := atan2 v.py v.px

/-- The wrapping formula of V4.deltaPhi on two azimuthal angles:
(phi1 - phi2 + 3 pi) % (2 pi) - pi. -/
def deltaPhiAngles (phi1 phi2 : ℝ) : ℝ := fmod (phi1 - phi2 + 3 * π) (2 * π) - π

/-- V4.deltaPhi: the wrapping formula applied to the two phi accessors. -/
def V4.deltaPhi (v w : V4) : ℝ := deltaPhiAngles v.phi w.phi

/-- V4.deltaEta. -/
def V4.deltaEta (v w : V4) : ℝ := v.eta - w.eta

/-- V4.deltaR. -/
def V4.deltaR (v w : V4) : ℝ := Real.sqrt (v.deltaPhi w ^ 2 + v.deltaEta w ^ 2)

/-- V4.eWithM: recompute e from the momenta and a given mass. -/
def V4.eWithM (v : V4) (m : ℝ) : ℝ := Real.sqrt (v.p2 + m ^ 2)

/-- V4.scale: multiply the momenta by factor and set e to abs (factor * e). -/
def V4.scale (v : V4) (factor : ℝ) : V4 :=
  { px := factor * v.px, py := factor * v.py, pz := factor * v.pz, e := |factor * v.e| }

/-- V4.scaleFixedM: scale the momenta, keeping the mass unchanged: the
current mass is read first, then e is recomputed from the scaled momenta
and that original mass. -/
def V4.scaleFixedM (v : V4) (factor : ℝ) : V4 :=
  let m := v.m
  let w : V4 := { v with px := factor * v.px, py := factor * v.py, pz := factor * v.pz }
  { w with e := w.eWithM m }

/-- V4.setPtEtaPhiM: build the components from pt, eta, phi and mass. -/
def setPtEtaPhiM (pt eta phi m : ℝ) : V4 :=
  let w : V4 := { px := pt * Real.cos phi, py := pt * Real.sin phi,
                  pz := pt * Real.sinh eta, e := 0 }
  { w with e := w.eWithM m }

/-- V4.__add__ / V4.sum: componentwise addition. -/
def vadd (v w : V4) : V4 :=
  { px := v.px + w.px, py := v.py + w.py, pz := v.pz + w.pz, e := v.e + w.e }

/-- V4.__init__ on scalar components: raises when e + 1e-3 < p. -/
def mkV4 (apx apy apz ae : ℝ) : Except String V4 :=
  if ae + 1e-3 < Real.sqrt (apx ^ 2 + apy ^ 2 + apz ^ 2) then
    .error "Energy is too small"
  else
    .ok { px := apx, py := apy, pz := apz, e := ae }

/-- numpy truth-value coercion of a boolean array, as used by the
`if` statement in V4.__init__: a one-element array yields its element, an
empty array is falsy, and any array with more than one element raises
ValueError. -/
def npTruthy : List Bool → Except String Bool
  | [] => .ok false
  | [b] => .ok b
  | _ => .error "The truth value of an array with more than one element is ambiguous"

/-- Three-list zip used to form the elementwise momentum magnitude. -/
def zipW3 {α β γ δ : Type} (f : α → β → γ → δ) : List α → List β → List γ → List δ
  | a :: as, b :: bs, c :: cs => f a b c :: zipW3 f as bs cs
  | _, _, _ => []

/-- A V4 whose fields are aligned arrays, one element per event. -/
structure V4Batch where
  px : List ℝ
  py : List ℝ
  pz : List ℝ
  e : List ℝ

/-- V4.__init__ on array components: the scalar check `if e + 1e-3 < p`
is applied to the elementwise comparison array through numpy truth-value
coercion. -/
def mkV4Batch (apx apy apz ae : List ℝ) : Except String V4Batch :=
  let p := zipW3 (fun x y z => Real.sqrt (x ^ 2 + y ^ 2 + z ^ 2)) apx apy apz
  let viol := List.zipWith (fun ee pp => if ee + 1e-3 < pp then true else false) ae p
  match npTruthy viol with
  | .error msg => .error msg
  | .ok true => .error "Energy is too small"
  | .ok false => .ok { px := apx, py := apy, pz := apz, e := ae }

lemma fmod_mem_Ico (x y : ℝ) (hy : 0 < y) : fmod x y ∈ Set.Ico 0 y := by
  unfold fmod
  constructor
  · have h := Int.floor_le (x / y)
    have h2 : y * (Int.floor (x / y) : ℝ) ≤ y * (x / y) :=
      mul_le_mul_of_nonneg_left h hy.le
    have h3 : y * (x / y) = x := by field_simp
    linarith
  · have h := Int.lt_floor_add_one (x / y)
    have h2 : y * (x / y) < y * ((Int.floor (x / y) : ℝ) + 1) :=
      mul_lt_mul_of_pos_left h hy
    have h3 : y * (x / y) = x := by field_simp
    nlinarith

lemma deltaPhiAngles_mem_Ico (phi1 phi2 : ℝ) :
    deltaPhiAngles phi1 phi2 ∈ Set.Ico (-π) π := by
  have h := fmod_mem_Ico (phi1 - phi2 + 3 * π) (2 * π) (by positivity)
  obtain ⟨h1, h2⟩ := h
  unfold deltaPhiAngles
  constructor <;> [linarith; linarith]

lemma deltaPhiAngles_three : deltaPhiAngles 3 (-3) = 6 - 2 * π := by
  have hpi4 := Real.pi_le_four
  have hpi3 := Real.pi_gt_three
  have h2pi : (0:ℝ) < 2 * π := by positivity
  have hfl : Int.floor (((3:ℝ) - (-3) + 3 * π) / (2 * π)) = 2 := by
    rw [Int.floor_eq_iff]
    constructor
    · push_cast
      rw [le_div_iff₀ h2pi]
      nlinarith
    · push_cast
      rw [div_lt_iff₀ h2pi]
      nlinarith
  unfold deltaPhiAngles fmod
  rw [hfl]
  push_cast
  ring

/-- Claim C2 (corrected): the wrapped angle difference always lies in the
half-open interval [-pi, pi) — the lower endpoint -pi is attainable and pi
is never returned — and for the input angles 3.0 and -3.0 the result is
6 - 2*pi, within 0.01 of -0.28 (and in particular not 6.0). -/
theorem c2_deltaPhi_range_amended :
    (∀ phi1 phi2 : ℝ, deltaPhiAngles phi1 phi2 ∈ Set.Ico (-π) π) ∧
    (∀ v w : V4, v.deltaPhi w ∈ Set.Ico (-π) π) ∧
    deltaPhiAngles 3 (-3) = 6 - 2 * π ∧
    |deltaPhiAngles 3 (-3) - (-0.28)| < 0.01 := by
  refine ⟨deltaPhiAngles_mem_Ico, fun v w => deltaPhiAngles_mem_Ico v.phi w.phi,
    deltaPhiAngles_three, ?_⟩
  rw [deltaPhiAngles_three]
  have l1 := Real.pi_gt_d6
  have l2 := Real.pi_lt_d6
  rw [abs_lt]
  constructor <;> nlinarith

/-- Claim C2 counterexample: for the vectors (-1,0,0,1) and (1,0,0,1),
whose azimuthal angles are pi and 0, V4.deltaPhi returns exactly -pi,
which is not in the claimed interval (-pi, pi]. -/
theorem c2_counterexample :
    V4.deltaPhi { px := -1, py := 0, pz := 0, e := 1 }
        { px := 1, py := 0, pz := 0, e := 1 } = -π ∧
    -π ∉ Set.Ioc (-π) π := by
  constructor
  · have hneg : atan2 0 (-1) = π := by
      unfold atan2
      have hc : (⟨-1, 0⟩ : ℂ) = (-1 : ℂ) := by
        apply Complex.ext <;> simp
      rw [hc, Complex.arg_neg_one]
    have hpos : atan2 0 1 = 0 := by
      unfold atan2
      have hc : (⟨1, 0⟩ : ℂ) = (1 : ℂ) := by
        apply Complex.ext <;> simp
      rw [hc, Complex.arg_one]
    show deltaPhiAngles (atan2 0 (-1)) (atan2 0 1) = -π
    rw [hneg, hpos]
    have hfl : Int.floor ((π - 0 + 3 * π) / (2 * π)) = 2 := by
      have h1 : (π - 0 + 3 * π) / (2 * π) = 2 := by
        field_simp
        ring
      rw [h1]
      norm_num
    unfold deltaPhiAngles fmod
    rw [hfl]
    push_cast
    ring
  · simp

/-- Claim C3 (code bug): a batch of two perfectly valid elements
(px = py = pz = [0,0], e = [1,1], so e + 1e-3 >= p holds elementwise)
fails to construct, because the scalar membership test is applied to the
two-element comparison array, whose numpy truth value is ambiguous; the
same component values construct fine in the single-vector form. -/
theorem c3_batch_construction_fails :
    mkV4 0 0 0 1 = .ok { px := 0, py := 0, pz := 0, e := 1 } ∧
    mkV4Batch [0, 0] [0, 0] [0, 0] [1, 1] =
      .error "The truth value of an array with more than one element is ambiguous" := by
  constructor
  · unfold mkV4
    rw [if_neg]
    rw [show (0:ℝ) ^ 2 + 0 ^ 2 + 0 ^ 2 = 0 by norm_num, Real.sqrt_zero]
    norm_num
  · unfold mkV4Batch zipW3 zipW3 zipW3
    simp only [List.zipWith]
    rfl

/-- Claim C4 (confirmed): for a valid vector and any factor in (0, 10],
scaleFixedM leaves the mass exactly unchanged (hence certainly within the
claimed 1e-6 relative tolerance). -/
theorem c4_scaleFixedM_preserves_mass (v : V4) (factor : ℝ)
    (h0 : 0 < factor) (h10 : factor ≤ 10) (hval : v.p ≤ v.e + 1e-3) :
    (v.scaleFixedM factor).m = v.m := by
  simp only [V4.scaleFixedM, V4.m, V4.eWithM, V4.p2]
  set M := Real.sqrt |v.e ^ 2 - (v.px ^ 2 + v.py ^ 2 + v.pz ^ 2)| with hM
  set P := (factor * v.px) ^ 2 + (factor * v.py) ^ 2 + (factor * v.pz) ^ 2 with hP
  have hMnn : 0 ≤ M := Real.sqrt_nonneg _
  have hPnn : 0 ≤ P := by rw [hP]; positivity
  rw [Real.sq_sqrt (by positivity : (0:ℝ) ≤ P + M ^ 2)]
  rw [show P + M ^ 2 - P = M ^ 2 by ring]
  rw [abs_of_nonneg (sq_nonneg M), Real.sqrt_sq hMnn]

/-- Witness for C4 at the vector (3,4,0,13) (p = 5, a valid state) and
factor 2. -/
theorem c4_witness :
    (V4.scaleFixedM { px := 3, py := 4, pz := 0, e := 13 } 2).m =
      ({ px := 3, py := 4, pz := 0, e := 13 } : V4).m := by
  refine c4_scaleFixedM_preserves_mass _ 2 (by norm_num) (by norm_num) ?_
  show Real.sqrt (({ px := 3, py := 4, pz := 0, e := 13 } : V4).p2) ≤ _
  simp only [V4.p2]
  rw [show ((3:ℝ)) ^ 2 + (4:ℝ) ^ 2 + (0:ℝ) ^ 2 = 5 ^ 2 by norm_num]
  rw [Real.sqrt_sq (by norm_num : (0:ℝ) ≤ 5)]
  norm_num

/-- The largest finite double, np.finfo(float64).max, used by np.nan_to_num
as the replacement for infinities. -/
def MAXFLOAT : ℝ := 1.7976931348623157e308

/-- A double-precision value in the centrality computation: an exact real
(rounding is not modelled), or one of the IEEE special values. -/
inductive FV where
  | fin : ℝ → FV
  | pinf : FV
  | ninf : FV
  | nan : FV

/-- The masked assignment A[A == np.inf] = 0: only +inf compares equal to
np.inf, so only +inf is replaced. -/
def maskInf : FV → FV
  | .pinf => .fin 0
  | x => x

/-- np.nan_to_num with default arguments: NaN becomes 0, +inf becomes the
largest finite double and -inf becomes its negation. -/
def nan_to_num : FV → FV
  | .nan => .fin 0
  | .pinf => .fin MAXFLOAT
  | .ninf => .fin (-MAXFLOAT)
  | .fin x => .fin x

/-- The two-step cleanup applied to A, B and res in METphi_centrality. -/
def npFix (x : FV) : FV := nan_to_num (maskInf x)

/-- np.true_divide on doubles: division by zero gives NaN or a signed
infinity, finite quotients beyond the largest double overflow to a signed
infinity, and division by an infinity gives 0 (infinity over infinity is
NaN); NaN propagates. -/
def fdiv : FV → FV → FV
  | .fin x, .fin y =>
    if y = 0 then (if x = 0 then .nan else if 0 < x then .pinf else .ninf)
    else if MAXFLOAT < x / y then .pinf
    else if x / y < -MAXFLOAT then .ninf
    else .fin (x / y)
  | .fin _, .pinf => .fin 0
  | .fin _, .ninf => .fin 0
  | .pinf, .fin y => if 0 ≤ y then .pinf else .ninf
  | .ninf, .fin y => if 0 ≤ y then .ninf else .pinf
  | .pinf, .pinf => .nan
  | .pinf, .ninf => .nan
  | .ninf, .pinf => .nan
  | .ninf, .ninf => .nan
  | .nan, _ => .nan
  | _, .nan => .nan

/-- Double addition: finite sums beyond the largest double overflow to a
signed infinity; infinities of opposite signs give NaN; NaN propagates. -/
def fadd : FV → FV → FV
  | .fin x, .fin y =>
    if MAXFLOAT < x + y then .pinf
    else if x + y < -MAXFLOAT then .ninf
    else .fin (x + y)
  | .fin _, .pinf => .pinf
  | .pinf, .fin _ => .pinf
  | .pinf, .pinf => .pinf
  | .fin _, .ninf => .ninf
  | .ninf, .fin _ => .ninf
  | .ninf, .ninf => .ninf
  | .pinf, .ninf => .nan
  | .ninf, .pinf => .nan
  | .nan, _ => .nan
  | _, .nan => .nan

/-- Double squaring (A**2): overflows to +inf; any infinity squares to
+inf; NaN propagates. -/
def fsq : FV → FV
  | .fin x => if MAXFLOAT < x ^ 2 then .pinf else .fin (x ^ 2)
  | .nan => .nan
  | _ => .pinf

/-- np.sqrt on doubles: negative arguments give NaN, +inf stays +inf. -/
def fsqrt : FV → FV
  | .fin x => if x < 0 then .nan else .fin (Real.sqrt x)
  | .pinf => .pinf
  | _ => .nan

/-- The real number stored in a finite FV (the centrality result is always
finite, see c5); junk value 0 otherwise. -/
def FV.toR : FV → ℝ
  | .fin x => x
  | _ => 0

/-- The final combination of METphi_centrality:
res = (A+B)/np.sqrt(A**2 + B**2), followed by the inf mask and
nan_to_num. -/
def combineFV (A B : FV) : FV := npFix (fdiv (fadd A B) (fsqrt (fadd (fsq A) (fsq B))))

/-- The term A of METphi_centrality:
np.true_divide(np.sin(cPhi - aPhi), np.sin(bPhi - aPhi)) followed by the
inf mask and nan_to_num. -/
def METphiA (aPhi bPhi cPhi : ℝ) : FV :=
  npFix (fdiv (.fin (Real.sin (cPhi - aPhi))) (.fin (Real.sin (bPhi - aPhi))))

/-- The term B of METphi_centrality:
np.true_divide(np.sin(bPhi - cPhi), np.sin(bPhi - aPhi)) followed by the
inf mask and nan_to_num. -/
def METphiB (aPhi bPhi cPhi : ℝ) : FV :=
  npFix (fdiv (.fin (Real.sin (bPhi - cPhi))) (.fin (Real.sin (bPhi - aPhi))))

/-- METphi_centrality of higgstautau.py, elementwise. -/
def METphi_centrality (aPhi bPhi cPhi : ℝ) : FV :=
  combineFV (METphiA aPhi bPhi cPhi) (METphiB aPhi bPhi cPhi)

lemma MAXFLOAT_pos : (0:ℝ) < MAXFLOAT := by norm_num [MAXFLOAT]

lemma one_lt_MAXFLOAT : (1:ℝ) < MAXFLOAT := by norm_num [MAXFLOAT]

lemma two_le_MAXFLOAT : (2:ℝ) ≤ MAXFLOAT := by norm_num [MAXFLOAT]

lemma big5_le_MAXFLOAT : (5e152:ℝ) ≤ MAXFLOAT := by norm_num [MAXFLOAT]

lemma big2sq_le_MAXFLOAT : (2:ℝ) * (5e152:ℝ) ^ 2 ≤ MAXFLOAT := by norm_num [MAXFLOAT]

lemma hsqrt2_pos : (0:ℝ) < Real.sqrt 2 := Real.sqrt_pos.mpr (by norm_num)

lemma hsqrt2_le_two : Real.sqrt 2 ≤ 2 := by
  have h4 : Real.sqrt 4 = 2 := by
    rw [show (4:ℝ) = 2 ^ 2 by norm_num]
    exact Real.sqrt_sq (by norm_num)
  calc Real.sqrt 2 ≤ Real.sqrt 4 := Real.sqrt_le_sqrt (by norm_num)
    _ = 2 := h4

lemma hsqrt2_le_MAXFLOAT : Real.sqrt 2 ≤ MAXFLOAT := le_trans hsqrt2_le_two two_le_MAXFLOAT

lemma npFix_fin (x : ℝ) : npFix (FV.fin x) = FV.fin x := rfl

lemma npFix_nan : npFix FV.nan = FV.fin 0 := rfl

lemma npFix_pinf : npFix FV.pinf = FV.fin 0 := rfl

lemma npFix_ninf : npFix FV.ninf = FV.fin (-MAXFLOAT) := rfl

lemma pdiv_fin (x y : ℝ) :
    ∃ t, npFix (fdiv (FV.fin x) (FV.fin y)) = FV.fin t ∧ |t| ≤ MAXFLOAT := by
  have habs0 : |(0:ℝ)| ≤ MAXFLOAT := by rw [abs_zero]; exact MAXFLOAT_pos.le
  have habsM : |(-MAXFLOAT)| ≤ MAXFLOAT := by
    rw [abs_neg, abs_of_nonneg MAXFLOAT_pos.le]
  simp only [fdiv]
  by_cases hy : y = 0
  · rw [if_pos hy]
    by_cases hx : x = 0
    · rw [if_pos hx]
      exact ⟨0, npFix_nan, habs0⟩
    · rw [if_neg hx]
      by_cases hx2 : 0 < x
      · rw [if_pos hx2]
        exact ⟨0, npFix_pinf, habs0⟩
      · rw [if_neg hx2]
        exact ⟨-MAXFLOAT, npFix_ninf, habsM⟩
  · rw [if_neg hy]
    by_cases h1 : MAXFLOAT < x / y
    · rw [if_pos h1]
      exact ⟨0, npFix_pinf, habs0⟩
    · rw [if_neg h1]
      by_cases h2 : x / y < -MAXFLOAT
      · rw [if_pos h2]
        exact ⟨-MAXFLOAT, npFix_ninf, habsM⟩
      · rw [if_neg h2]
        exact ⟨x / y, npFix_fin _, abs_le.mpr ⟨le_of_not_lt h2, le_of_not_lt h1⟩⟩

lemma pdiv_ratio_neg (x y : ℝ) (h : x / y < 0) :
    ∃ t, npFix (fdiv (FV.fin x) (FV.fin y)) = FV.fin t ∧ -MAXFLOAT ≤ t ∧ t < 0 := by
  have hy : y ≠ 0 := by
    rintro rfl
    rw [div_zero] at h
    exact lt_irrefl 0 h
  simp only [fdiv]
  rw [if_neg hy, if_neg (by linarith [MAXFLOAT_pos] : ¬ MAXFLOAT < x / y)]
  by_cases h2 : x / y < -MAXFLOAT
  · rw [if_pos h2]
    exact ⟨-MAXFLOAT, npFix_ninf, le_refl _, by linarith [MAXFLOAT_pos]⟩
  · rw [if_neg h2]
    exact ⟨x / y, npFix_fin _, le_of_not_lt h2, h⟩

lemma pdiv_ratio_pos (x y : ℝ) (h : 0 < x / y) :
    ∃ t, npFix (fdiv (FV.fin x) (FV.fin y)) = FV.fin t ∧ 0 ≤ t ∧ t ≤ MAXFLOAT := by
  have hy : y ≠ 0 := by
    rintro rfl
    rw [div_zero] at h
    exact lt_irrefl 0 h
  simp only [fdiv]
  rw [if_neg hy]
  by_cases h1 : MAXFLOAT < x / y
  · rw [if_pos h1]
    exact ⟨0, npFix_pinf, le_refl _, MAXFLOAT_pos.le⟩
  · rw [if_neg h1, if_neg (by linarith [MAXFLOAT_pos] : ¬ x / y < -MAXFLOAT)]
    exact ⟨x / y, npFix_fin _, h.le, le_of_not_lt h1⟩

lemma fdiv_pinf_den (x y : ℝ) :
    npFix (fdiv (fadd (FV.fin x) (FV.fin y)) FV.pinf) = FV.fin 0 := by
  simp only [fadd]
  by_cases h1 : MAXFLOAT < x + y
  · rw [if_pos h1]
    rfl
  · rw [if_neg h1]
    by_cases h2 : x + y < -MAXFLOAT
    · rw [if_pos h2]
      rfl
    · rw [if_neg h2]
      rfl

lemma combine_fin (x y : ℝ) (hx : |x| ≤ MAXFLOAT) (hy : |y| ≤ MAXFLOAT) :
    ∃ r, combineFV (FV.fin x) (FV.fin y) = FV.fin r ∧ |r| ≤ Real.sqrt 2 ∧
      (x * y ≤ 0 → |r| ≤ 1) ∧ (x + y ≤ 0 → r ≤ 0) := by
  by_cases hx2 : MAXFLOAT < x ^ 2
  · have hden : fsqrt (fadd (fsq (FV.fin x)) (fsq (FV.fin y))) = FV.pinf := by
      simp only [fsq]
      rw [if_pos hx2]
      by_cases hy2 : MAXFLOAT < y ^ 2
      · rw [if_pos hy2]
        rfl
      · rw [if_neg hy2]
        rfl
    refine ⟨0, ?_, by rw [abs_zero]; exact hsqrt2_pos.le, fun _ => by norm_num,
      fun _ => le_refl 0⟩
    rw [combineFV, hden]
    exact fdiv_pinf_den x y
  · by_cases hy2 : MAXFLOAT < y ^ 2
    · have hden : fsqrt (fadd (fsq (FV.fin x)) (fsq (FV.fin y))) = FV.pinf := by
        simp only [fsq]
        rw [if_neg hx2, if_pos hy2]
        rfl
      refine ⟨0, ?_, by rw [abs_zero]; exact hsqrt2_pos.le, fun _ => by norm_num,
        fun _ => le_refl 0⟩
      rw [combineFV, hden]
      exact fdiv_pinf_den x y
    · by_cases hs : MAXFLOAT < x ^ 2 + y ^ 2
      · have hden : fsqrt (fadd (fsq (FV.fin x)) (fsq (FV.fin y))) = FV.pinf := by
          simp only [fsq]
          rw [if_neg hx2, if_neg hy2, fadd, if_pos hs]
          rfl
        refine ⟨0, ?_, by rw [abs_zero]; exact hsqrt2_pos.le, fun _ => by norm_num,
          fun _ => le_refl 0⟩
        rw [combineFV, hden]
        exact fdiv_pinf_den x y
      · have hsum : x ^ 2 + y ^ 2 ≤ MAXFLOAT := le_of_not_lt hs
        have hden : fsqrt (fadd (fsq (FV.fin x)) (fsq (FV.fin y))) =
            FV.fin (Real.sqrt (x ^ 2 + y ^ 2)) := by
          simp only [fsq]
          rw [if_neg hx2, if_neg hy2, fadd,
            if_neg (by push_neg; linarith : ¬ MAXFLOAT < x ^ 2 + y ^ 2),
            if_neg (by push_neg; linarith [sq_nonneg x, sq_nonneg y, MAXFLOAT_pos] :
              ¬ x ^ 2 + y ^ 2 < -MAXFLOAT), fsqrt,
            if_neg (by push_neg; positivity : ¬ x ^ 2 + y ^ 2 < 0)]
        have hkey : (x + y) ^ 2 ≤ 2 * (x ^ 2 + y ^ 2) := by nlinarith [sq_nonneg (x - y)]
        have habs : |x + y| ≤ MAXFLOAT := by
          have h4 : (x + y) ^ 2 ≤ MAXFLOAT ^ 2 := by
            nlinarith [two_le_MAXFLOAT, MAXFLOAT_pos]
          calc |x + y| = Real.sqrt ((x + y) ^ 2) := (Real.sqrt_sq_eq_abs _).symm
            _ ≤ Real.sqrt (MAXFLOAT ^ 2) := Real.sqrt_le_sqrt h4
            _ = MAXFLOAT := Real.sqrt_sq MAXFLOAT_pos.le
        have hnum : fadd (FV.fin x) (FV.fin y) = FV.fin (x + y) := by
          rw [fadd, if_neg (by linarith [le_abs_self (x + y)]),
            if_neg (by linarith [neg_abs_le (x + y)])]
        by_cases hzero : x ^ 2 + y ^ 2 = 0
        · have hx0 : x = 0 := by nlinarith [sq_nonneg x, sq_nonneg y]
          have hy0 : y = 0 := by nlinarith [sq_nonneg x, sq_nonneg y]
          subst hx0
          subst hy0
          refine ⟨0, ?_, by rw [abs_zero]; exact hsqrt2_pos.le, fun _ => by norm_num,
            fun _ => le_refl 0⟩
          rw [combineFV, hden, hnum]
          rw [show (0:ℝ) + 0 = 0 by norm_num, show (0:ℝ) ^ 2 + 0 ^ 2 = 0 by norm_num,
            Real.sqrt_zero]
          have hnn : fdiv (FV.fin 0) (FV.fin 0) = FV.nan := by simp [fdiv]
          rw [hnn]
          rfl
        · have hd : 0 < Real.sqrt (x ^ 2 + y ^ 2) :=
            Real.sqrt_pos.mpr (lt_of_le_of_ne (by positivity) (Ne.symm hzero))
          have habs2 : |x + y| ≤ Real.sqrt 2 * Real.sqrt (x ^ 2 + y ^ 2) := by
            calc |x + y| = Real.sqrt ((x + y) ^ 2) := (Real.sqrt_sq_eq_abs _).symm
              _ ≤ Real.sqrt (2 * (x ^ 2 + y ^ 2)) := Real.sqrt_le_sqrt hkey
              _ = Real.sqrt 2 * Real.sqrt (x ^ 2 + y ^ 2) :=
                Real.sqrt_mul (by norm_num) _
          have hrabs : |(x + y) / Real.sqrt (x ^ 2 + y ^ 2)| ≤ Real.sqrt 2 := by
            rw [abs_div, abs_of_nonneg hd.le, div_le_iff₀ hd]
            exact habs2
          have hok : fdiv (FV.fin (x + y)) (FV.fin (Real.sqrt (x ^ 2 + y ^ 2))) =
              FV.fin ((x + y) / Real.sqrt (x ^ 2 + y ^ 2)) := by
            simp only [fdiv]
            rw [if_neg hd.ne',
              if_neg (by push_neg; linarith [le_abs_self ((x + y) / Real.sqrt (x ^ 2 + y ^ 2)),
                hsqrt2_le_MAXFLOAT]),
              if_neg (by push_neg; linarith [neg_abs_le ((x + y) / Real.sqrt (x ^ 2 + y ^ 2)),
                hsqrt2_le_MAXFLOAT])]
          refine ⟨(x + y) / Real.sqrt (x ^ 2 + y ^ 2), ?_, hrabs, ?_, ?_⟩
          · rw [combineFV, hden, hnum, hok]
            rfl
          · intro hxy
            have hkey2 : (x + y) ^ 2 ≤ x ^ 2 + y ^ 2 := by nlinarith
            have habs3 : |x + y| ≤ Real.sqrt (x ^ 2 + y ^ 2) := by
              calc |x + y| = Real.sqrt ((x + y) ^ 2) := (Real.sqrt_sq_eq_abs _).symm
                _ ≤ Real.sqrt (x ^ 2 + y ^ 2) := Real.sqrt_le_sqrt hkey2
            rw [abs_div, abs_of_nonneg hd.le, div_le_one hd]
            exact habs3
          · intro hsum2
            exact div_nonpos_iff.mpr (Or.inr ⟨hsum2, hd.le⟩)

lemma combine_diag_pos (s : ℝ) (hs : 0 < s) (h2 : 2 * s ^ 2 ≤ MAXFLOAT) :
    combineFV (FV.fin s) (FV.fin s) = FV.fin (Real.sqrt 2) := by
  have hs2 : s ^ 2 ≤ MAXFLOAT := by nlinarith [sq_nonneg s]
  have h2s : s + s ≤ MAXFLOAT := by
    rcases le_or_lt s 1 with h | h
    · linarith [two_le_MAXFLOAT]
    · nlinarith
  have hden : fsqrt (fadd (fsq (FV.fin s)) (fsq (FV.fin s))) =
      FV.fin (Real.sqrt 2 * s) := by
    simp only [fsq]
    rw [if_neg (not_lt.mpr hs2), fadd,
      if_neg (by push_neg; linarith : ¬ MAXFLOAT < s ^ 2 + s ^ 2),
      if_neg (by push_neg; nlinarith [MAXFLOAT_pos] : ¬ s ^ 2 + s ^ 2 < -MAXFLOAT), fsqrt,
      if_neg (by push_neg; positivity : ¬ s ^ 2 + s ^ 2 < 0),
      show s ^ 2 + s ^ 2 = 2 * s ^ 2 by ring, Real.sqrt_mul (by norm_num) (s ^ 2),
      Real.sqrt_sq hs.le]
  have hnum : fadd (FV.fin s) (FV.fin s) = FV.fin (s + s) := by
    rw [fadd, if_neg (by push_neg; linarith : ¬ MAXFLOAT < s + s),
      if_neg (by push_neg; nlinarith [MAXFLOAT_pos] : ¬ s + s < -MAXFLOAT)]
  have hratio : (s + s) / (Real.sqrt 2 * s) = Real.sqrt 2 := by
    rw [show s + s = 2 * s by ring]
    rw [mul_comm (Real.sqrt 2) s, ← div_div, mul_div_assoc, div_self hs.ne', mul_one]
    rw [eq_comm, eq_div_iff hsqrt2_pos.ne']
    exact Real.mul_self_sqrt (by norm_num)
  rw [combineFV, hden, hnum]
  have hd : (0:ℝ) < Real.sqrt 2 * s := by positivity
  simp only [fdiv]
  rw [if_neg hd.ne', hratio,
    if_neg (not_lt.mpr hsqrt2_le_MAXFLOAT),
    if_neg (by push_neg; linarith [hsqrt2_pos, MAXFLOAT_pos] : ¬ Real.sqrt 2 < -MAXFLOAT)]
  rfl

lemma combine_diag_negval (s : ℝ) (hs : 0 < s) (h2 : 2 * s ^ 2 ≤ MAXFLOAT) :
    combineFV (FV.fin (-s)) (FV.fin (-s)) = FV.fin (-(Real.sqrt 2)) := by
  have hs2 : s ^ 2 ≤ MAXFLOAT := by nlinarith [sq_nonneg s]
  have h2s : s + s ≤ MAXFLOAT := by
    rcases le_or_lt s 1 with h | h
    · linarith [two_le_MAXFLOAT]
    · nlinarith
  have hneg2 : (-s) ^ 2 = s ^ 2 := by ring
  have hden : fsqrt (fadd (fsq (FV.fin (-s))) (fsq (FV.fin (-s)))) =
      FV.fin (Real.sqrt 2 * s) := by
    simp only [fsq, hneg2]
    rw [if_neg (not_lt.mpr hs2), fadd,
      if_neg (by push_neg; linarith : ¬ MAXFLOAT < s ^ 2 + s ^ 2),
      if_neg (by push_neg; nlinarith [MAXFLOAT_pos] : ¬ s ^ 2 + s ^ 2 < -MAXFLOAT), fsqrt,
      if_neg (by push_neg; positivity : ¬ s ^ 2 + s ^ 2 < 0),
      show s ^ 2 + s ^ 2 = 2 * s ^ 2 by ring, Real.sqrt_mul (by norm_num) (s ^ 2),
      Real.sqrt_sq hs.le]
  have hnum : fadd (FV.fin (-s)) (FV.fin (-s)) = FV.fin (-s + -s) := by
    rw [fadd, if_neg (by push_neg; nlinarith [MAXFLOAT_pos] : ¬ MAXFLOAT < -s + -s),
      if_neg (by push_neg; linarith : ¬ -s + -s < -MAXFLOAT)]
  have hratio : (-s + -s) / (Real.sqrt 2 * s) = -(Real.sqrt 2) := by
    rw [show -s + -s = -(s + s) by ring, neg_div, neg_inj]
    rw [show s + s = 2 * s by ring]
    rw [mul_comm (Real.sqrt 2) s, ← div_div, mul_div_assoc, div_self hs.ne', mul_one]
    rw [eq_comm, eq_div_iff hsqrt2_pos.ne']
    exact Real.mul_self_sqrt (by norm_num)
  rw [combineFV, hden, hnum]
  have hd : (0:ℝ) < Real.sqrt 2 * s := by positivity
  simp only [fdiv]
  rw [if_neg hd.ne', hratio,
    if_neg (by push_neg; linarith [hsqrt2_pos, MAXFLOAT_pos] : ¬ MAXFLOAT < -(Real.sqrt 2)),
    if_neg (by push_neg; linarith [hsqrt2_le_MAXFLOAT] : ¬ -(Real.sqrt 2) < -MAXFLOAT)]
  rfl

lemma fsq_zero : fsq (FV.fin 0) = FV.fin 0 := by
  rw [fsq, if_neg (by push_neg; nlinarith [MAXFLOAT_pos] : ¬ MAXFLOAT < (0:ℝ) ^ 2)]
  norm_num

lemma fsq_negMAX : fsq (FV.fin (-MAXFLOAT)) = FV.pinf := by
  rw [fsq, if_pos]
  nlinarith [one_lt_MAXFLOAT, MAXFLOAT_pos]

lemma combine_negMAX_zero : combineFV (FV.fin (-MAXFLOAT)) (FV.fin 0) = FV.fin 0 := by
  rw [combineFV, fsq_negMAX, fsq_zero]
  have hnum : fadd (FV.fin (-MAXFLOAT)) (FV.fin 0) = FV.fin (-MAXFLOAT + 0) := by
    rw [fadd, if_neg (by push_neg; nlinarith [MAXFLOAT_pos] : ¬ MAXFLOAT < -MAXFLOAT + 0),
      if_neg (by push_neg; linarith : ¬ -MAXFLOAT + 0 < -MAXFLOAT)]
  rw [hnum]
  rfl

lemma combine_zero_negMAX : combineFV (FV.fin 0) (FV.fin (-MAXFLOAT)) = FV.fin 0 := by
  rw [combineFV, fsq_negMAX, fsq_zero]
  have hnum : fadd (FV.fin 0) (FV.fin (-MAXFLOAT)) = FV.fin (0 + -MAXFLOAT) := by
    rw [fadd, if_neg (by push_neg; nlinarith [MAXFLOAT_pos] : ¬ MAXFLOAT < 0 + -MAXFLOAT),
      if_neg (by push_neg; linarith : ¬ 0 + -MAXFLOAT < -MAXFLOAT)]
  rw [hnum]
  rfl

lemma combine_zero_zero : combineFV (FV.fin 0) (FV.fin 0) = FV.fin 0 := by
  rw [combineFV, fsq_zero]
  have hnum : fadd (FV.fin 0) (FV.fin 0) = FV.fin 0 := by
    rw [fadd, if_neg (by push_neg; nlinarith [MAXFLOAT_pos] : ¬ MAXFLOAT < (0:ℝ) + 0),
      if_neg (by push_neg; nlinarith [MAXFLOAT_pos] : ¬ (0:ℝ) + 0 < -MAXFLOAT)]
    norm_num
  rw [hnum, fsqrt, if_neg (by norm_num : ¬ (0:ℝ) < 0), Real.sqrt_zero]
  have hnn : fdiv (FV.fin 0) (FV.fin 0) = FV.nan := by
    simp [fdiv]
  rw [hnn]
  rfl

/-- Claim C5 counterexample: with aPhi = bPhi = 0 (zero denominator
sin(bPhi - aPhi) = 0) and cPhi = -pi/2, the raw term A is -infinity; the
cleanup replaces it with -MAXFLOAT = -1.7976931348623157e308, not with 0,
because the mask A[A == np.inf] = 0 only catches +infinity and nan_to_num
maps -infinity to the most negative finite double. -/
theorem c5_counterexample :
    fdiv (FV.fin (Real.sin (-(π / 2) - 0))) (FV.fin (Real.sin ((0:ℝ) - 0))) = FV.ninf ∧
    METphiA 0 0 (-(π / 2)) = FV.fin (-MAXFLOAT) ∧
    (-MAXFLOAT : ℝ) ≠ 0 := by
  have h1 : Real.sin (-(π / 2) - 0) = -1 := by
    rw [sub_zero, Real.sin_neg, Real.sin_pi_div_two]
  have h0 : Real.sin ((0:ℝ) - 0) = 0 := by rw [sub_zero, Real.sin_zero]
  have hdiv : fdiv (FV.fin (Real.sin (-(π / 2) - 0))) (FV.fin (Real.sin ((0:ℝ) - 0))) =
      FV.ninf := by
    rw [h1, h0]
    norm_num [fdiv]
  refine ⟨hdiv, ?_, by nlinarith [MAXFLOAT_pos]⟩
  rw [METphiA, hdiv]
  rfl

/-- Claim C5 (corrected): NaN and +infinity intermediates are replaced by
exactly 0, but -infinity intermediates are replaced by the most negative
finite double, not 0 (see the counterexample).  Nevertheless the returned
value of METphi_centrality is always a finite number of magnitude at most
sqrt 2, and zero-denominator elements (aPhi = bPhi) still evaluate to
exactly 0. -/
theorem c5_metphi_finite_and_degenerate_zero (aPhi bPhi cPhi : ℝ) :
    (∃ r, METphi_centrality aPhi bPhi cPhi = FV.fin r ∧ |r| ≤ Real.sqrt 2) ∧
    (aPhi = bPhi → METphi_centrality aPhi bPhi cPhi = FV.fin 0) := by
  constructor
  · obtain ⟨xA, hA, hAb⟩ := pdiv_fin (Real.sin (cPhi - aPhi)) (Real.sin (bPhi - aPhi))
    obtain ⟨xB, hB, hBb⟩ := pdiv_fin (Real.sin (bPhi - cPhi)) (Real.sin (bPhi - aPhi))
    obtain ⟨r, hr, hr2, _, _⟩ := combine_fin xA xB hAb hBb
    refine ⟨r, ?_, hr2⟩
    rw [METphi_centrality, METphiA, METphiB, hA, hB]
    exact hr
  · intro h
    subst h
    have hD : Real.sin (aPhi - aPhi) = 0 := by rw [sub_self, Real.sin_zero]
    have hs2 : Real.sin (aPhi - cPhi) = -Real.sin (cPhi - aPhi) := by
      rw [← Real.sin_neg, neg_sub]
    rw [METphi_centrality, METphiA, METphiB, hD, hs2]
    rcases lt_trichotomy (Real.sin (cPhi - aPhi)) 0 with hneg | hzero | hpos
    · have hA : npFix (fdiv (FV.fin (Real.sin (cPhi - aPhi))) (FV.fin 0)) =
          FV.fin (-MAXFLOAT) := by
        simp [fdiv, npFix, maskInf, nan_to_num, hneg.ne, lt_asymm hneg]
      have hB : npFix (fdiv (FV.fin (-Real.sin (cPhi - aPhi))) (FV.fin 0)) = FV.fin 0 := by
        simp [fdiv, npFix, maskInf, nan_to_num, neg_ne_zero.mpr hneg.ne,
          neg_pos.mpr hneg]
      rw [hA, hB, combine_negMAX_zero]
    · rw [hzero, neg_zero]
      have hA : npFix (fdiv (FV.fin 0) (FV.fin 0)) = FV.fin 0 := by
        have hnn : fdiv (FV.fin 0) (FV.fin 0) = FV.nan := by simp [fdiv]
        rw [hnn]
        rfl
      rw [hA, combine_zero_zero]
    · have hA : npFix (fdiv (FV.fin (Real.sin (cPhi - aPhi))) (FV.fin 0)) = FV.fin 0 := by
        simp [fdiv, npFix, maskInf, nan_to_num, hpos.ne', hpos]
      have hB : npFix (fdiv (FV.fin (-Real.sin (cPhi - aPhi))) (FV.fin 0)) =
          FV.fin (-MAXFLOAT) := by
        simp [fdiv, npFix, maskInf, nan_to_num, neg_ne_zero.mpr hpos.ne',
          lt_asymm (neg_neg_of_pos hpos)]
      rw [hA, hB, combine_zero_negMAX]

/-- Witness for C5 at the degenerate input aPhi = bPhi = 0, cPhi = -pi/2
(the very input of the counterexample): the returned value is exactly 0. -/
theorem c5_witness : METphi_centrality 0 0 (-(π / 2)) = FV.fin 0 :=
  (c5_metphi_finite_and_degenerate_zero 0 0 (-(π / 2))).2 rfl

lemma pdiv_by_one (x : ℝ) (hx : |x| ≤ 2) :
    npFix (fdiv (FV.fin x) (FV.fin 1)) = FV.fin x := by
  simp only [fdiv]
  rw [if_neg one_ne_zero, div_one,
    if_neg (by push_neg; linarith [le_abs_self x, two_le_MAXFLOAT] : ¬ MAXFLOAT < x),
    if_neg (by push_neg; linarith [neg_abs_le x, two_le_MAXFLOAT] : ¬ x < -MAXFLOAT)]
  rfl

/-- Claim C6 (corrected): with the bounds less than half a turn apart
(0 < b - a < pi) and the intermediate ratio within float range,
METphi_centrality is exactly sqrt 2 at the angular midpoint; and when c
lies outside [a, b] but within half a turn of the bounds, the magnitude
of the result is at most 1.  Without these provisos the claim fails, see
the counterexample. -/
theorem c6_metphi_centrality_amended (aPhi bPhi cPhi : ℝ)
    (h0 : 0 < bPhi - aPhi) (h1 : bPhi - aPhi < π) :
    (cPhi = (aPhi + bPhi) / 2 → 1e-153 ≤ Real.cos ((bPhi - aPhi) / 2) →
      METphi_centrality aPhi bPhi cPhi = FV.fin (Real.sqrt 2)) ∧
    ((bPhi - π < cPhi ∧ cPhi < aPhi) ∨ (bPhi < cPhi ∧ cPhi < aPhi + π) →
      ∃ r, METphi_centrality aPhi bPhi cPhi = FV.fin r ∧ |r| ≤ 1) := by
  have hsD : 0 < Real.sin (bPhi - aPhi) := Real.sin_pos_of_pos_of_lt_pi h0 h1
  constructor
  · intro hc hcos
    have e1 : cPhi - aPhi = (bPhi - aPhi) / 2 := by rw [hc]; ring
    have e2 : bPhi - cPhi = (bPhi - aPhi) / 2 := by rw [hc]; ring
    have hh0 : 0 < (bPhi - aPhi) / 2 := by linarith
    have hh1 : (bPhi - aPhi) / 2 < π := by linarith
    have hsh : 0 < Real.sin ((bPhi - aPhi) / 2) := Real.sin_pos_of_pos_of_lt_pi hh0 hh1
    have hcpos : (0:ℝ) < Real.cos ((bPhi - aPhi) / 2) :=
      lt_of_lt_of_le (by norm_num) hcos
    have hdouble : Real.sin (bPhi - aPhi) =
        2 * Real.sin ((bPhi - aPhi) / 2) * Real.cos ((bPhi - aPhi) / 2) := by
      have h := Real.sin_two_mul ((bPhi - aPhi) / 2)
      rw [show 2 * ((bPhi - aPhi) / 2) = bPhi - aPhi by ring] at h
      exact h
    set s := Real.sin ((bPhi - aPhi) / 2) / Real.sin (bPhi - aPhi) with hsdef
    have hs_eq : s = 1 / (2 * Real.cos ((bPhi - aPhi) / 2)) := by
      rw [hsdef, hdouble]
      rw [div_eq_div_iff (by rw [← hdouble]; exact hsD.ne')
        (mul_pos (by norm_num : (0:ℝ) < 2) hcpos).ne']
      ring
    have hs_pos : 0 < s := by
      rw [hs_eq]
      positivity
    have hs_le : s ≤ 5e152 := by
      rw [hs_eq, div_le_iff₀ (by positivity)]
      nlinarith
    have h2s : 2 * s ^ 2 ≤ MAXFLOAT := by
      nlinarith [big2sq_le_MAXFLOAT, hs_pos.le, hs_le]
    have hA : METphiA aPhi bPhi cPhi = FV.fin s := by
      rw [METphiA, e1]
      simp only [fdiv]
      rw [if_neg hsD.ne', ← hsdef,
        if_neg (by push_neg; linarith [big5_le_MAXFLOAT] : ¬ MAXFLOAT < s),
        if_neg (by push_neg; linarith [MAXFLOAT_pos] : ¬ s < -MAXFLOAT)]
      rfl
    have hB : METphiB aPhi bPhi cPhi = FV.fin s := by
      rw [METphiB, e2]
      simp only [fdiv]
      rw [if_neg hsD.ne', ← hsdef,
        if_neg (by push_neg; linarith [big5_le_MAXFLOAT] : ¬ MAXFLOAT < s),
        if_neg (by push_neg; linarith [MAXFLOAT_pos] : ¬ s < -MAXFLOAT)]
      rfl
    rw [METphi_centrality, hA, hB]
    exact combine_diag_pos s hs_pos h2s
  · intro hout
    rcases hout with ⟨hl1, hl2⟩ | ⟨hr1, hr2⟩
    · have hsu : Real.sin (cPhi - aPhi) < 0 :=
        Real.sin_neg_of_neg_of_neg_pi_lt (by linarith) (by linarith)
      have hsb : 0 < Real.sin (bPhi - cPhi) :=
        Real.sin_pos_of_pos_of_lt_pi (by linarith) (by linarith)
      obtain ⟨xA, hA, hA1, hA2⟩ :=
        pdiv_ratio_neg _ _ (div_neg_of_neg_of_pos hsu hsD)
      obtain ⟨xB, hB, hB1, hB2⟩ :=
        pdiv_ratio_pos _ _ (div_pos hsb hsD)
      have hxA : |xA| ≤ MAXFLOAT := abs_le.mpr ⟨hA1, hA2.le.trans MAXFLOAT_pos.le⟩
      have hxB : |xB| ≤ MAXFLOAT := abs_le.mpr ⟨by linarith [MAXFLOAT_pos], hB2⟩
      obtain ⟨r, hr, _, hone, _⟩ := combine_fin xA xB hxA hxB
      refine ⟨r, ?_, hone (mul_nonpos_iff.mpr (Or.inr ⟨hA2.le, hB1⟩))⟩
      rw [METphi_centrality, METphiA, METphiB, hA, hB]
      exact hr
    · have hsu : 0 < Real.sin (cPhi - aPhi) :=
        Real.sin_pos_of_pos_of_lt_pi (by linarith) (by linarith)
      have hsb : Real.sin (bPhi - cPhi) < 0 :=
        Real.sin_neg_of_neg_of_neg_pi_lt (by linarith) (by linarith)
      obtain ⟨xA, hA, hA1, hA2⟩ :=
        pdiv_ratio_pos _ _ (div_pos hsu hsD)
      obtain ⟨xB, hB, hB1, hB2⟩ :=
        pdiv_ratio_neg _ _ (div_neg_of_neg_of_pos hsb hsD)
      have hxA : |xA| ≤ MAXFLOAT := abs_le.mpr ⟨by linarith [MAXFLOAT_pos], hA2⟩
      have hxB : |xB| ≤ MAXFLOAT := abs_le.mpr ⟨hB1, hB2.le.trans MAXFLOAT_pos.le⟩
      obtain ⟨r, hr, _, hone, _⟩ := combine_fin xA xB hxA hxB
      refine ⟨r, ?_, hone (mul_nonpos_iff.mpr (Or.inl ⟨hA1, hB2.le⟩))⟩
      rw [METphi_centrality, METphiA, METphiB, hA, hB]
      exact hr

/-- Claim C6 counterexample: as stated the claim is false on both counts.
With a = 0, b = pi/2 the point c = -3 pi/4 is outside [a, b], yet the
score is -sqrt 2, whose magnitude exceeds 1 (c is diametrically opposite
the midpoint, and the sine-based score cannot tell the two apart up to
sign).  And with a = -3, b = 3 (a valid pair with a different midpoint
geometry: b - a = 6 exceeds pi), the exact midpoint c = 0 does not score
sqrt 2. -/
theorem c6_counterexample :
    METphi_centrality 0 (π / 2) (-(3 * π / 4)) = FV.fin (-(Real.sqrt 2)) ∧
    1 < Real.sqrt 2 ∧
    -(3 * π / 4) ∉ Set.Icc (0:ℝ) (π / 2) ∧
    (0:ℝ) = ((-3) + 3) / 2 ∧
    METphi_centrality (-3) 3 0 ≠ FV.fin (Real.sqrt 2) := by
  have h1lt : (1:ℝ) < Real.sqrt 2 := by
    have h := Real.sqrt_lt_sqrt (by norm_num : (0:ℝ) ≤ 1) (by norm_num : (1:ℝ) < 2)
    rwa [Real.sqrt_one] at h
  refine ⟨?_, h1lt, ?_, by norm_num, ?_⟩
  · have hs1 : Real.sin (-(3 * π / 4) - 0) = -(Real.sqrt 2 / 2) := by
      rw [sub_zero, Real.sin_neg, show (3 * π / 4 : ℝ) = π - π / 4 by ring,
        Real.sin_pi_sub, Real.sin_pi_div_four]
    have hsD : Real.sin (π / 2 - 0) = 1 := by rw [sub_zero, Real.sin_pi_div_two]
    have hs2 : Real.sin (π / 2 - -(3 * π / 4)) = -(Real.sqrt 2 / 2) := by
      rw [show (π / 2 - -(3 * π / 4) : ℝ) = π / 4 + π by ring, Real.sin_add_pi,
        Real.sin_pi_div_four]
    have habs : |(-(Real.sqrt 2 / 2))| ≤ 2 := by
      rw [abs_neg, abs_of_nonneg (by positivity)]
      linarith [hsqrt2_le_two]
    have hA : METphiA 0 (π / 2) (-(3 * π / 4)) = FV.fin (-(Real.sqrt 2 / 2)) := by
      rw [METphiA, hs1, hsD]
      exact pdiv_by_one _ habs
    have hB : METphiB 0 (π / 2) (-(3 * π / 4)) = FV.fin (-(Real.sqrt 2 / 2)) := by
      rw [METphiB, hs2, hsD]
      exact pdiv_by_one _ habs
    rw [METphi_centrality, hA, hB]
    have h2 : 2 * (Real.sqrt 2 / 2) ^ 2 ≤ MAXFLOAT := by
      rw [div_pow, Real.sq_sqrt (by norm_num : (0:ℝ) ≤ 2)]
      norm_num [MAXFLOAT]
    exact combine_diag_negval (Real.sqrt 2 / 2) (by positivity) h2
  · intro h
    rw [Set.mem_Icc] at h
    nlinarith [Real.pi_pos, h.1]
  · have hsin3 : 0 < Real.sin 3 :=
      Real.sin_pos_of_pos_of_lt_pi (by norm_num) (by nlinarith [Real.pi_gt_d6])
    have hsin6 : Real.sin 6 < 0 := by
      have h2 : Real.sin (6 - 2 * π) < 0 :=
        Real.sin_neg_of_neg_of_neg_pi_lt (by nlinarith [Real.pi_gt_three])
          (by nlinarith [Real.pi_lt_d2])
      rwa [Real.sin_sub_two_pi] at h2
    obtain ⟨x, hx, hx1, hx2⟩ :=
      pdiv_ratio_neg (Real.sin 3) (Real.sin 6) (div_neg_of_pos_of_neg hsin3 hsin6)
    have hxabs : |x| ≤ MAXFLOAT := abs_le.mpr ⟨hx1, hx2.le.trans MAXFLOAT_pos.le⟩
    obtain ⟨r, hr, _, _, hsign⟩ := combine_fin x x hxabs hxabs
    have hr0 : r ≤ 0 := hsign (by linarith)
    have hA : METphiA (-3) 3 0 = FV.fin x := by
      rw [METphiA, show (0:ℝ) - -3 = 3 by norm_num, show (3:ℝ) - -3 = 6 by norm_num]
      exact hx
    have hB : METphiB (-3) 3 0 = FV.fin x := by
      rw [METphiB, show (3:ℝ) - 0 = 3 by norm_num, show (3:ℝ) - -3 = 6 by norm_num]
      exact hx
    intro hcontra
    rw [METphi_centrality, hA, hB, hr] at hcontra
    have : r = Real.sqrt 2 := by
      injection hcontra
    linarith [hsqrt2_pos]

/-- Witness for C6: the midpoint example of the claim (a = 0, b = pi/2,
c = pi/4) gives exactly sqrt 2, and c = -pi/4 (outside [a, b] but within
half a turn) scores with magnitude at most 1. -/
theorem c6_witness :
    METphi_centrality 0 (π / 2) (π / 4) = FV.fin (Real.sqrt 2) ∧
    (∃ r, METphi_centrality 0 (π / 2) (-(π / 4)) = FV.fin r ∧ |r| ≤ 1) := by
  have hpi := Real.pi_pos
  constructor
  · refine (c6_metphi_centrality_amended 0 (π / 2) (π / 4) (by linarith)
      (by linarith)).1 (by ring) ?_
    rw [show (π / 2 - 0) / 2 = π / 4 by ring, Real.cos_pi_div_four]
    nlinarith [Real.sq_sqrt (by norm_num : (0:ℝ) ≤ 2), Real.sqrt_nonneg 2]
  · exact (c6_metphi_centrality_amended 0 (π / 2) (-(π / 4)) (by linarith)
      (by linarith)).2 (Or.inl ⟨by linarith, by linarith⟩)

/-- eta_centrality of higgstautau.py, elementwise over exact reals:
center = (etaJ1 + etaJ2)/2, width = 1/(etaJ1 - center)**2 with the
division-by-zero result masked to 0, result exp(-width*(eta - center)**2). -/
def eta_centrality (eta etaJ1 etaJ2 : ℝ) : ℝ :=
  let center := (etaJ1 + etaJ2) / 2
  let width := if (etaJ1 - center) ^ 2 = 0 then 0 else 1 / (etaJ1 - center) ^ 2
  Real.exp (-width * (eta - center) ^ 2)

/-- Claim C10 (confirmed): eta_centrality is symmetric in its two
reference arguments — the center is the mean of the two references, and
the width squares the half-difference, whose sign flips under the swap. -/
theorem c10_eta_centrality_symm (eta etaJ1 etaJ2 : ℝ) :
    eta_centrality eta etaJ1 etaJ2 = eta_centrality eta etaJ2 etaJ1 := by
  simp only [eta_centrality]
  rw [show (etaJ2 + etaJ1) / 2 = (etaJ1 + etaJ2) / 2 by ring,
    show (etaJ2 - (etaJ1 + etaJ2) / 2) ^ 2 = (etaJ1 - (etaJ1 + etaJ2) / 2) ^ 2 by ring]

/-- The label column entry of an event: either numeric (0.0 background,
1.0 signal) or the original character label ("b" or "s"). -/
inductive Lab where
  | num : ℝ → Lab
  | str : String → Lab

/-- A detail label: a numeric provenance code from the static table, or
the background fallback "W". -/
inductive DLabel where
  | num : ℕ → DLabel
  | W : DLabel

instance : DecidableEq DLabel := fun a b => by
  cases a <;> cases b
  case num.num m n =>
    exact match Nat.decEq m n with
    | isTrue h => isTrue (by rw [h])
    | isFalse h => isFalse (by intro hc; injection hc; exact h (by assumption))
  case num.W => exact isFalse (by intro hc; exact DLabel.noConfusion hc)
  case W.num => exact isFalse (by intro hc; exact DLabel.noConfusion hc)
  case W.W => exact isTrue rfl

/-- The static numeric detail-label table detail_label_num of
getDetailLabel, keyed by the quantized original weight. -/
def detail_label_num (k : ℤ) : Option ℕ :=
  if k = 57207 then some 0
  else if k = 4613 then some 1
  else if k = 8145 then some 2
  else if k = 4610 then some 3
  else if k = 917703 then some 105
  else if k = 5127399 then some 111
  else if k = 4435976 then some 112
  else if k = 4187604 then some 113
  else if k = 2407146 then some 114
  else if k = 1307751 then some 115
  else if k = 944596 then some 122
  else if k = 936590 then some 123
  else if k = 1093224 then some 124
  else if k = 225326 then some 132
  else if k = 217575 then some 133
  else if k = 195328 then some 134
  else if k = 254338 then some 135
  else if k = 2268701 then some 300
  else none

/-- Python int(): truncation toward zero. -/
def truncInt (x : ℝ) : ℤ := if 0 ≤ x then Int.floor x else Int.ceil x

/-- The quantized weight key iWeight = int(1e7 * origWeight + 0.5). -/
def iWeight (origWeight : ℝ) : ℤ := truncInt (1e7 * origWeight + 0.5)

/-- getDetailLabel of higgstautau.py in its default numeric mode: look up
the quantized weight; on a miss the fallback "W" is returned, unless the
label is neither 0 nor the character b, in which case a ValueError is
raised. -/
def getDetailLabel (origWeight : ℝ) (label : Lab) : Except String DLabel :=
  match detail_label_num (iWeight origWeight) with
  | some n => .ok (.num n)
  | none =>
    if label ≠ Lab.num 0 ∧ label ≠ Lab.str "b" then
      .error "ERROR! if not in detailLabelDict sould have Label==1"
    else .ok .W

/-- One event row of the dataset as seen by the weight pipeline. -/
structure Row where
  Weight : ℝ
  Label : Lab
  origWeight : Option ℝ
  detailLabel : Option DLabel

/-- bkg_weight_norm of higgstautau.py on one row: origWeight is
unconditionally overwritten with the current weight, the detail label is
computed from that same value if the column is absent (which can raise),
and the weight of fallback-labelled rows is scaled. -/
def bkg_weight_norm (r : Row) (systBkgNorm : ℝ) : Row × Option String :=
  let r1 : Row := { r with origWeight := some r.Weight }
  match r1.detailLabel with
  | some dl =>
    ({ r1 with Weight := if dl = DLabel.W then r.Weight * systBkgNorm else r.Weight }, none)
  | none =>
    match getDetailLabel r.Weight r.Label with
    | .error e => (r1, some e)
    | .ok dl =>
      ({ r1 with detailLabel := some dl,
                 Weight := if dl = DLabel.W then r.Weight * systBkgNorm else r.Weight },
        none)

lemma iWeight_one : iWeight 1 = 10000000 := by
  unfold iWeight truncInt
  rw [if_pos (by norm_num : (0:ℝ) ≤ 1e7 * 1 + 0.5)]
  rw [show (1e7:ℝ) * 1 + 0.5 = 10000000.5 by norm_num]
  rw [Int.floor_eq_iff]
  constructor <;> [push_cast; push_cast] <;> norm_num

lemma getDetailLabel_one_bkg : getDetailLabel 1 (Lab.num 0) = .ok DLabel.W := by
  unfold getDetailLabel
  rw [iWeight_one, show detail_label_num 10000000 = none from by decide]
  rw [if_neg]
  simp

/-- A background-fallback row of weight 1, before any weight pipeline. -/
def rowFresh : Row := { Weight := 1, Label := Lab.num 0, origWeight := none, detailLabel := none }

/-- rowFresh after bkg_weight_norm with factor 2. -/
def rowOnce : Row := { Weight := 2, Label := Lab.num 0, origWeight := some 1, detailLabel := some DLabel.W }

/-- rowOnce after bkg_weight_norm with factor 3. -/
def rowTwice : Row := { Weight := 6, Label := Lab.num 0, origWeight := some 2, detailLabel := some DLabel.W }

lemma bkg_first_step : bkg_weight_norm rowFresh 2 = (rowOnce, none) := by
  unfold bkg_weight_norm rowFresh rowOnce
  simp only [getDetailLabel_one_bkg]
  norm_num

lemma bkg_second_step : bkg_weight_norm rowOnce 3 = (rowTwice, none) := by
  unfold bkg_weight_norm rowOnce rowTwice
  norm_num

/-- Claim C7 counterexample: start from a single background-fallback row
of weight 1 (rowFresh), run the pipeline with factor 2 and then with
factor 3.  The second call overwrites origWeight with the already-scaled
weight 2 (it is not preserved at its first-recorded value 1), and the
resulting weight is 1*2*3 = 6, not the claimed 1*3 = 3. -/
theorem c7_counterexample :
    bkg_weight_norm rowFresh 2 = (rowOnce, none) ∧
    bkg_weight_norm rowOnce 3 = (rowTwice, none) ∧
    rowTwice.Weight = 6 ∧ (6:ℝ) ≠ rowFresh.Weight * 3 ∧
    rowTwice.origWeight = some 2 ∧ some (2:ℝ) ≠ some rowFresh.Weight := by
  refine ⟨bkg_first_step, bkg_second_step, rfl, by norm_num [rowFresh], rfl, by
    norm_num [rowFresh]⟩

/-- Claim C7 (corrected): origWeight is overwritten, not preserved, by
every call.  After a successful first application with factor f and a
second with factor g, a background-fallback row carries
weight = original * f * g (compounding from the previously-scaled weight,
not from the first-recorded original) and origWeight = original * f. -/
theorem c7_second_application_compounds (r r1 r2 : Row) (f g : ℝ)
    (hA : bkg_weight_norm r f = (r1, none))
    (hB : bkg_weight_norm r1 g = (r2, none))
    (hW : r1.detailLabel = some DLabel.W) :
    r1.Weight = r.Weight * f ∧
    r2.origWeight = some (r.Weight * f) ∧
    r2.Weight = r.Weight * f * g := by
  have h1w : r1.Weight = r.Weight * f := by
    unfold bkg_weight_norm at hA
    rcases hdl : r.detailLabel with _ | dl
    · rw [hdl] at hA
      rcases hgl : getDetailLabel r.Weight r.Label with e | dl2
      · rw [hgl] at hA
        simp at hA
      · rw [hgl] at hA
        obtain ⟨hA1, -⟩ := Prod.mk.injEq .. ▸ hA
        rw [← hA1] at hW
        simp only at hW
        have hdl2 : dl2 = DLabel.W := by
          injection hW
        rw [← hA1]
        simp only
        rw [if_pos hdl2]
    · rw [hdl] at hA
      obtain ⟨hA1, -⟩ := Prod.mk.injEq .. ▸ hA
      rw [← hA1] at hW
      simp only at hW
      have hdl2 : dl = DLabel.W := by
        injection hW
      rw [← hA1]
      simp only
      rw [if_pos hdl2]
  unfold bkg_weight_norm at hB
  rw [hW] at hB
  obtain ⟨hB1, -⟩ := Prod.mk.injEq .. ▸ hB
  rw [if_pos rfl] at hB1
  refine ⟨h1w, ?_, ?_⟩
  · rw [← hB1]
    simp only
    rw [h1w]
  · rw [← hB1]
    simp only
    rw [h1w]

/-- Witness for C7 at the concrete two-call run of the counterexample. -/
theorem c7_witness :
    rowOnce.Weight = rowFresh.Weight * 2 ∧
    rowTwice.origWeight = some (rowFresh.Weight * 2) ∧
    rowTwice.Weight = rowFresh.Weight * 2 * 3 :=
  c7_second_application_compounds rowFresh rowOnce rowTwice 2 3
    bkg_first_step bkg_second_step rfl

/-- Claim C9 (confirmed): getDetailLabel is a pure function of the
quantized key int(1e7*weight + 0.5) and the label; an unknown key with a
background label (numeric 0 or character b) yields the fallback W without
error, and an unknown key with any other label raises the integrity
error. -/
theorem c9_getDetailLabel_contract :
    (∀ w1 w2 : ℝ, ∀ l : Lab, iWeight w1 = iWeight w2 →
      getDetailLabel w1 l = getDetailLabel w2 l) ∧
    (∀ w : ℝ, ∀ l : Lab, detail_label_num (iWeight w) = none →
      (l = Lab.num 0 ∨ l = Lab.str "b") → getDetailLabel w l = .ok DLabel.W) ∧
    (∀ w : ℝ, ∀ l : Lab, detail_label_num (iWeight w) = none →
      l ≠ Lab.num 0 → l ≠ Lab.str "b" →
      getDetailLabel w l = .error "ERROR! if not in detailLabelDict sould have Label==1") := by
  refine ⟨?_, ?_, ?_⟩
  · intro w1 w2 l h
    unfold getDetailLabel
    rw [h]
  · intro w l hkey hl
    unfold getDetailLabel
    rw [hkey]
    rcases hl with h | h <;> subst h <;> simp
  · intro w l hkey h0 hb
    unfold getDetailLabel
    rw [hkey, if_pos ⟨h0, hb⟩]

/-- Witness for C9 at weight 1 (unknown quantized key 10000000): the
background label gives the fallback, the signal label raises. -/
theorem c9_witness :
    getDetailLabel 1 (Lab.num 0) = .ok DLabel.W ∧
    getDetailLabel 1 (Lab.num 1) =
      .error "ERROR! if not in detailLabelDict sould have Label==1" := by
  have hkey : detail_label_num (iWeight 1) = none := by
    rw [iWeight_one]
    decide
  constructor
  · exact c9_getDetailLabel_contract.2.1 1 (Lab.num 0) hkey (Or.inl rfl)
  · refine c9_getDetailLabel_contract.2.2 1 (Lab.num 1) hkey ?_ ?_
    · intro h
      injection h with h2
      norm_num at h2
    · intro h
      exact Lab.noConfusion h

/-- Round half to even on the reals, as numpy rounding behaves at exact
ties. -/
def rhe (x : ℝ) : ℤ := if Int.fract x = 1 / 2 then 2 * round (x / 2) else round x

/-- pandas Series.round(decimals=3): round the value scaled by 1000 and
scale back. -/
def round3 (x : ℝ) : ℝ := ((rhe (x * 1000) : ℤ) : ℝ) / 1000

lemma round3_small : round3 (0.0001 : ℝ) = 0 := by
  unfold round3 rhe
  rw [show (0.0001:ℝ) * 1000 = 0.1 by norm_num]
  rw [if_neg (by
    rw [Int.fract_eq_self.mpr ⟨by norm_num, by norm_num⟩]
    norm_num)]
  rw [round_eq, show (0.1:ℝ) + 1 / 2 = 0.6 by norm_num]
  rw [show Int.floor ((0.6:ℝ)) = 0 from by
    rw [Int.floor_eq_iff]
    constructor <;> push_cast <;> norm_num]
  norm_num

/-- The columns of the dataset touched by tau_energy_scale; a column that
may be absent is None. -/
structure DataSet where
  PRI_tau_pt : Option ℝ
  PRI_tau_eta : Option ℝ
  PRI_tau_phi : Option ℝ
  PRI_lep_pt : Option ℝ
  PRI_lep_eta : Option ℝ
  PRI_lep_phi : Option ℝ
  PRI_met : Option ℝ
  PRI_met_phi : Option ℝ
  DER_mass_transverse_met_lep : Option ℝ
  DER_mass_vis : Option ℝ
  DER_pt_h : Option ℝ
  DER_deltar_tau_lep : Option ℝ
  DER_pt_ratio_lep_tau : Option ℝ
  DER_met_phi_centrality : Option ℝ

/-- tau_energy_scale of higgstautau.py.  Columns are read in source
order; a missing column aborts with a KeyError at the moment it is first
read, leaving the mutations already made in place (the very first
statement multiplies PRI_tau_pt in place).  On success the met columns
and the six derived columns are recomputed through the four-vector
algebra and every touched column is rounded to 3 decimals. -/
def tau_energy_scale (data : DataSet) (systTauEnergyScale : ℝ) : DataSet × Option String :=
  match data.PRI_tau_pt with
  | none => (data, some "KeyError: PRI_tau_pt")
  | some pt0 =>
    let d1 : DataSet := { data with PRI_tau_pt := some (pt0 * systTauEnergyScale) }
    match d1.PRI_tau_eta with
    | none => (d1, some "KeyError: PRI_tau_eta")
    | some tauEta =>
      match d1.PRI_tau_phi with
      | none => (d1, some "KeyError: PRI_tau_phi")
      | some tauPhi =>
        match d1.PRI_lep_pt with
        | none => (d1, some "KeyError: PRI_lep_pt")
        | some lepPt =>
          match d1.PRI_lep_eta with
          | none => (d1, some "KeyError: PRI_lep_eta")
          | some lepEta =>
            match d1.PRI_lep_phi with
            | none => (d1, some "KeyError: PRI_lep_phi")
            | some lepPhi =>
              match d1.PRI_met with
              | none => (d1, some "KeyError: PRI_met")
              | some met0 =>
                match d1.PRI_met_phi with
                | none => (d1, some "KeyError: PRI_met_phi")
                | some metPhi =>
                  let tauPt := pt0 * systTauEnergyScale
                  let vtau := setPtEtaPhiM tauPt tauEta tauPhi 0.8
                  let vlep := setPtEtaPhiM lepPt lepEta lepPhi 0
                  let vmet := setPtEtaPhiM met0 0 metPhi 0
                  let vtauDeltaMinus :=
                    vtau.scaleFixedM ((1 - systTauEnergyScale) / systTauEnergyScale)
                  let vmet2 := vadd vmet vtauDeltaMinus
                  let vmet3 : V4 := { vmet2 with pz := 0 }
                  let vmet4 : V4 := { vmet3 with e := vmet3.eWithM 0 }
                  let newMet := vmet4.pt
                  let newMetPhi := vmet4.phi
                  let vtransverse := setPtEtaPhiM vlep.pt 0 vlep.phi 0
                  let vtransverse2 := vadd vtransverse vmet4
                  let derMT := vtransverse2.m
                  let vltau := vadd vlep vtau
                  let derMvis := vltau.m
                  let vltaumet := vadd vltau vmet4
                  let derPtH := vltaumet.pt
                  let derDR := vtau.deltaR vlep
                  let derPtRat := vlep.pt / vtau.pt
                  let derCent := (METphi_centrality lepPhi tauPhi newMetPhi).toR
                  ({ PRI_tau_pt := some (round3 tauPt)
                     PRI_tau_eta := some (round3 tauEta)
                     PRI_tau_phi := some (round3 tauPhi)
                     PRI_lep_pt := some (round3 lepPt)
                     PRI_lep_eta := some (round3 lepEta)
                     PRI_lep_phi := some (round3 lepPhi)
                     PRI_met := some (round3 newMet)
                     PRI_met_phi := some (round3 newMetPhi)
                     DER_mass_transverse_met_lep := some (round3 derMT)
                     DER_mass_vis := some (round3 derMvis)
                     DER_pt_h := some (round3 derPtH)
                     DER_deltar_tau_lep := some (round3 derDR)
                     DER_pt_ratio_lep_tau := some (round3 derPtRat)
                     DER_met_phi_centrality := some (round3 derCent) }, none)

/-- A complete dataset whose tau pseudorapidity 0.0001 is not on the
3-decimal grid. -/
def dsC1 : DataSet where
  PRI_tau_pt := some 1
  PRI_tau_eta := some 0.0001
  PRI_tau_phi := some 0
  PRI_lep_pt := some 1
  PRI_lep_eta := some 0
  PRI_lep_phi := some 0
  PRI_met := some 1
  PRI_met_phi := some 0
  DER_mass_transverse_met_lep := none
  DER_mass_vis := none
  DER_pt_h := none
  DER_deltar_tau_lep := none
  DER_pt_ratio_lep_tau := none
  DER_met_phi_centrality := none

/-- A complete dataset with unit entries. -/
def dsW : DataSet where
  PRI_tau_pt := some 1
  PRI_tau_eta := some 1
  PRI_tau_phi := some 1
  PRI_lep_pt := some 1
  PRI_lep_eta := some 1
  PRI_lep_phi := some 1
  PRI_met := some 1
  PRI_met_phi := some 1
  DER_mass_transverse_met_lep := none
  DER_mass_vis := none
  DER_pt_h := none
  DER_deltar_tau_lep := none
  DER_pt_ratio_lep_tau := none
  DER_met_phi_centrality := none

/-- A dataset with PRI_tau_pt present (value 4) but PRI_lep_pt missing. -/
def dsM : DataSet where
  PRI_tau_pt := some 4
  PRI_tau_eta := some 1
  PRI_tau_phi := some 1
  PRI_lep_pt := none
  PRI_lep_eta := some 1
  PRI_lep_phi := some 1
  PRI_met := some 1
  PRI_met_phi := some 1
  DER_mass_transverse_met_lep := none
  DER_mass_vis := none
  DER_pt_h := none
  DER_deltar_tau_lep := none
  DER_pt_ratio_lep_tau := none
  DER_met_phi_centrality := none

/-- A dataset with no columns at all. -/
def dsN : DataSet where
  PRI_tau_pt := none
  PRI_tau_eta := none
  PRI_tau_phi := none
  PRI_lep_pt := none
  PRI_lep_eta := none
  PRI_lep_phi := none
  PRI_met := none
  PRI_met_phi := none
  DER_mass_transverse_met_lep := none
  DER_mass_vis := none
  DER_pt_h := none
  DER_deltar_tau_lep := none
  DER_pt_ratio_lep_tau := none
  DER_met_phi_centrality := none

/-- Claim C1 counterexample: even with scale factor 1, the pipeline
rounds PRI_tau_eta (a primary column other than PRI_tau_pt, PRI_met,
PRI_met_phi) to 3 decimals: the stored 0.0001 becomes 0, so the column
does not keep its values. -/
theorem c1_counterexample :
    (tau_energy_scale dsC1 1).2 = none ∧
    dsC1.PRI_tau_eta = some 0.0001 ∧
    (tau_energy_scale dsC1 1).1.PRI_tau_eta = some 0 ∧
    ((0:ℝ) ≠ 0.0001) := by
  refine ⟨rfl, rfl, ?_, by norm_num⟩
  show (some (round3 (0.0001:ℝ)) : Option ℝ) = some 0
  rw [round3_small]

/-- Claim C1 (corrected): on a dataset with all eight required primary
columns, the pipeline succeeds and every derived column of section 4.3
step 4 is present; but besides PRI_tau_pt, PRI_met and PRI_met_phi the
remaining five primary columns are not left unchanged: each is rounded to
3 decimals as the final step, so its values are altered whenever they are
not already on the 3-decimal grid. -/
theorem c1_tau_energy_scale_columns (data : DataSet)
    (f pt1 eta1 phi1 pt2 eta2 phi2 met1 mphi1 : ℝ)
    (h1 : data.PRI_tau_pt = some pt1) (h2 : data.PRI_tau_eta = some eta1)
    (h3 : data.PRI_tau_phi = some phi1) (h4 : data.PRI_lep_pt = some pt2)
    (h5 : data.PRI_lep_eta = some eta2) (h6 : data.PRI_lep_phi = some phi2)
    (h7 : data.PRI_met = some met1) (h8 : data.PRI_met_phi = some mphi1) :
    (tau_energy_scale data f).2 = none ∧
    ((tau_energy_scale data f).1.DER_mass_transverse_met_lep.isSome = true ∧
     (tau_energy_scale data f).1.DER_mass_vis.isSome = true ∧
     (tau_energy_scale data f).1.DER_pt_h.isSome = true ∧
     (tau_energy_scale data f).1.DER_deltar_tau_lep.isSome = true ∧
     (tau_energy_scale data f).1.DER_pt_ratio_lep_tau.isSome = true ∧
     (tau_energy_scale data f).1.DER_met_phi_centrality.isSome = true) ∧
    ((tau_energy_scale data f).1.PRI_tau_eta = some (round3 eta1) ∧
     (tau_energy_scale data f).1.PRI_tau_phi = some (round3 phi1) ∧
     (tau_energy_scale data f).1.PRI_lep_pt = some (round3 pt2) ∧
     (tau_energy_scale data f).1.PRI_lep_eta = some (round3 eta2) ∧
     (tau_energy_scale data f).1.PRI_lep_phi = some (round3 phi2)) := by
  obtain ⟨a1, a2, a3, a4, a5, a6, a7, a8, a9, a10, a11, a12, a13, a14⟩ := data
  dsimp only at h1 h2 h3 h4 h5 h6 h7 h8
  subst h1
  subst h2
  subst h3
  subst h4
  subst h5
  subst h6
  subst h7
  subst h8
  exact ⟨rfl, ⟨rfl, rfl, rfl, rfl, rfl, rfl⟩, rfl, rfl, rfl, rfl, rfl⟩

/-- Witness for C1 at the all-present unit dataset with factor 2. -/
theorem c1_witness :
    (tau_energy_scale dsW 2).2 = none ∧
    (tau_energy_scale dsW 2).1.DER_mass_vis.isSome = true ∧
    (tau_energy_scale dsW 2).1.PRI_tau_eta = some (round3 1) := by
  obtain ⟨ha, hb, hc⟩ :=
    c1_tau_energy_scale_columns dsW 2 1 1 1 1 1 1 1 1 rfl rfl rfl rfl rfl rfl rfl rfl
  exact ⟨ha, hb.2.1, hc.1⟩

/-- Claim C8 counterexample: on a dataset that has PRI_tau_pt (value 4)
but lacks PRI_lep_pt, the call with factor 2 fails, yet PRI_tau_pt has
already been scaled to 8 when the error is raised: the caller observes a
half-mutated dataset. -/
theorem c8_counterexample :
    (tau_energy_scale dsM 2).2 = some "KeyError: PRI_lep_pt" ∧
    dsM.PRI_tau_pt = some 4 ∧
    (tau_energy_scale dsM 2).1.PRI_tau_pt = some 8 ∧
    ((8:ℝ) ≠ 4) := by
  refine ⟨rfl, rfl, ?_, by norm_num⟩
  show (some ((4:ℝ) * 2) : Option ℝ) = some 8
  norm_num

/-- Claim C8 (corrected): a missing required column makes the pipeline
fail with an error, but the application is not all-or-nothing.  Only a
missing PRI_tau_pt (the first column accessed) leaves the dataset fully
unchanged; if PRI_tau_pt is present and any other required column is
missing, the error is raised after PRI_tau_pt has already been scaled in
place, so exactly that column is observed mutated. -/
theorem c8_missing_column_partial_mutation (data : DataSet) (f : ℝ) :
    (data.PRI_tau_pt = none →
      tau_energy_scale data f = (data, some "KeyError: PRI_tau_pt")) ∧
    (∀ pt1 : ℝ, data.PRI_tau_pt = some pt1 →
      (data.PRI_tau_eta = none ∨ data.PRI_tau_phi = none ∨ data.PRI_lep_pt = none ∨
       data.PRI_lep_eta = none ∨ data.PRI_lep_phi = none ∨ data.PRI_met = none ∨
       data.PRI_met_phi = none) →
      (tau_energy_scale data f).1 = { data with PRI_tau_pt := some (pt1 * f) } ∧
      (tau_energy_scale data f).2.isSome = true) := by
  obtain ⟨a1, a2, a3, a4, a5, a6, a7, a8, a9, a10, a11, a12, a13, a14⟩ := data
  constructor
  · intro h
    dsimp only at h
    subst h
    rfl
  · intro pt1 h hmiss
    dsimp only at h
    subst h
    dsimp only at hmiss
    rcases a2 with _ | v2
    · exact ⟨rfl, rfl⟩
    rcases a3 with _ | v3
    · exact ⟨rfl, rfl⟩
    rcases a4 with _ | v4
    · exact ⟨rfl, rfl⟩
    rcases a5 with _ | v5
    · exact ⟨rfl, rfl⟩
    rcases a6 with _ | v6
    · exact ⟨rfl, rfl⟩
    rcases a7 with _ | v7
    · exact ⟨rfl, rfl⟩
    rcases a8 with _ | v8
    · exact ⟨rfl, rfl⟩
    rcases hmiss with h | h | h | h | h | h | h <;> exact Option.noConfusion h

/-- Witness for C8: the empty dataset fails untouched on the missing
PRI_tau_pt, and dsM (tau pt present, lepton pt missing) fails with
exactly its PRI_tau_pt column scaled. -/
theorem c8_witness :
    tau_energy_scale dsN 3 = (dsN, some "KeyError: PRI_tau_pt") ∧
    ((tau_energy_scale dsM 2).1 = { dsM with PRI_tau_pt := some (4 * 2) } ∧
     (tau_energy_scale dsM 2).2.isSome = true) :=
  ⟨(c8_missing_column_partial_mutation dsN 3).1 rfl,
    (c8_missing_column_partial_mutation dsM 2).2 4 rfl (Or.inr (Or.inr (Or.inl rfl)))⟩
